import Mathlib

set_option maxHeartbeats 1000000
set_option maxRecDepth 100000

/-!
Shallow embedding of `app.js` (yoani-buppan-helper): a browser client that
fetches a paginated collection of event documents from a Firestore REST
endpoint, normalizes them, classifies each by official-site URL, sorts,
filters and renders them.

Modelling conventions:
* JS strings are `String`, JS numbers used as epoch milliseconds are `Int`.
* The DOM is external; `renderEvents` is modelled as the markup string the
  source assigns to `listEl.innerHTML`, and `updateStats` as the pure count
  computation it writes into the count slots.
* `escapeHtml` goes through the browser (`div.textContent = text; return
  div.innerHTML`); it is modelled as the standard text-node serialization,
  which escapes `&`, `<`, `>` and U+00A0.
* `new Date(...).getFullYear()/getMonth()/getDate()` use the local calendar;
  the model uses the proleptic Gregorian (UTC) calendar.
* `Array.prototype.sort` is required by ECMAScript to be stable and is
  modelled by the stable `List.mergeSort`, with `le a b` holding exactly when
  the comparator `(a, b) => b.created - a.created` returns a value `≤ 0`.
* The network is modelled as the list of responses the endpoint produces for
  the successive requests of one `fetchEvents` run; a missing or failed
  response (non-ok status or a JSON parse error, which in the source makes
  the `try` block throw) is the `Resp.fail` case.
-/

/-- Per-group static configuration (`url` and `displayName` fields of the
`GROUP_CONFIG` values in `app.js`). -/
structure GroupInfo where
  url : String
  displayName : String
deriving DecidableEq

/-- The static `GROUP_CONFIG` mapping of `app.js`, in its defined
(insertion) order, which is the order `Object.entries` enumerates. -/
def GROUP_CONFIG : List (String × GroupInfo) :=
  [("equal-love", ⟨"https://equal-love.jp/", "=LOVE"⟩),
   ("not-equal-me", ⟨"https://not-equal-me.jp/", "≠ME"⟩),
   ("nearly-equal-joy", ⟨"https://nearly-equal-joy.jp/", "≒JOY"⟩),
   ("unknown", ⟨"", "その他"⟩)]

/-- The `for (const [group, config] of Object.entries(GROUP_CONFIG))` loop
body of `officialSiteToGroup`: return the first key whose `url` equals the
input, else fall through. -/
def lookupGroup : List (String × GroupInfo) → String → String
  | [], _ => "unknown"
  | (group, config) :: rest, siteUrl =>
    if config.url = siteUrl then group else lookupGroup rest siteUrl

/-- `officialSiteToGroup` from `app.js`: convert an official-site URL to a
group identifier, falling back to `"unknown"`. -/
def officialSiteToGroup (siteUrl : String) : String :=
  lookupGroup GROUP_CONFIG siteUrl

/-- `getGroupDisplayName` from `app.js`:
`GROUP_CONFIG[group]?.displayName ?? 'その他'`. -/
def getGroupDisplayName (group : String) : String :=
  match GROUP_CONFIG.find? (fun e => e.1 = group) with
  | some e => e.2.displayName
  | none => "その他"

/-- The normalized event record built in `fetchEvents` (`id`, `name`,
`group`, `created`). -/
structure Event where
  id : String
  name : String
  group : String
  created : Int
deriving DecidableEq

/-- `generateShopLink` from `app.js`:
`` `https://monosys.net/${event.group}/${event.id}` ``. -/
def generateShopLink (event : Event) : String :=
  "https://monosys.net/" ++ event.group ++ "/" ++ event.id

/-- Decimal digit character, as produced by JS `String(number)` for a single
digit. -/
def digitChar : Nat → Char
  | 0 => '0'
  | 1 => '1'
  | 2 => '2'
  | 3 => '3'
  | 4 => '4'
  | 5 => '5'
  | 6 => '6'
  | 7 => '7'
  | 8 => '8'
  | _ => '9'

/-- Digit accumulator loop for `natDigits`; the first argument is fuel
(structural recursion so that the kernel can evaluate it), always taken
large enough. -/
def natDigitsGo : Nat → Nat → List Char → List Char
  | 0, _, acc => acc
  | fuel + 1, n, acc =>
    if n < 10 then digitChar n :: acc
    else natDigitsGo fuel (n / 10) (digitChar (n % 10) :: acc)

/-- Decimal digit list of a natural number (most significant first), the
digit sequence JS `String(number)` produces for a nonnegative integer. -/
def natDigits (n : Nat) : List Char :=
  natDigitsGo (n + 1) n []

/-- JS `String(n)` for a natural number. -/
def natRepr (n : Nat) : String :=
  ⟨natDigits n⟩

/-- JS `String(i)` for an integer. -/
def intRepr (i : Int) : String :=
  if i < 0 then "-" ++ natRepr (-i).toNat else natRepr i.toNat

/-- JS `String.prototype.padStart(2, '0')` as used in `formatDate`. -/
def pad2 (s : String) : String :=
  if s.length = 0 then "00" else if s.length = 1 then "0" ++ s else s

/-- Civil (proleptic Gregorian) date from a day count relative to
1970-01-01, the calendar computation behind `Date#getFullYear`,
`getMonth() + 1` and `getDate` (modelled in UTC). Returns
`(year, month, day)` with `month ∈ [1, 12]` and `day ∈ [1, 31]`. -/
def civilFromDays (z0 : Int) : Int × Nat × Nat :=
  let z := z0 + 719468
  let era := z.fdiv 146097
  let doe := (z - era * 146097).toNat
  let yoe := (doe - doe / 1460 + doe / 36524 - doe / 146096) / 365
  let doy := doe - (365 * yoe + yoe / 4 - yoe / 100)
  let mp := (5 * doy + 2) / 153
  let d := doy - (153 * mp + 2) / 5 + 1
  let m := if mp < 10 then mp + 3 else mp - 9
  let y : Int := yoe + era * 400
  (if m ≤ 2 then y + 1 else y, m, d)

/-- `formatDate` from `app.js`: format an epoch-milliseconds timestamp as
`` `${year}/${month}/${day}` `` with month and day zero-padded to two
digits (`padStart(2, '0')`); the year is not padded. -/
def formatDate (timestamp : Int) : String :=
  let c := civilFromDays (timestamp.fdiv 86400000)
  intRepr c.1 ++ "/" ++ pad2 (natRepr c.2.1) ++ "/" ++ pad2 (natRepr c.2.2)

/-- A raw Firestore document as consumed by `fetchEvents`: the path-like
`name`, the two optional string fields read out of `doc.fields`, and the
`createTime` metadata already converted to epoch milliseconds (the source
does `new Date(doc.createTime).getTime()`; the ISO-string parse is external
and is modelled by carrying the resulting milliseconds directly). -/
structure RawDoc where
  name : String
  event_name : Option String
  official_site_url : Option String
  createTimeMillis : Int
deriving DecidableEq

/-- JS `String.prototype.split` with a single-character separator, on the
character list of the string: splits at every occurrence of `sep`; the
result is always nonempty, and splitting the empty string yields `[[]]`,
exactly as `''.split('/')` yields `['']`. -/
def splitChar (sep : Char) : List Char → List (List Char)
  | [] => [[]]
  | c :: rest =>
    match splitChar sep rest with
    | [] => [[c]]
    | h :: t => if c = sep then [] :: h :: t else (c :: h) :: t

/-- `doc.name.split('/').pop()`: the last segment of the document path
(`split` never returns an empty array, so `pop` cannot yield `undefined`;
the `getLastD` default is unreachable). -/
def lastPathSegment (path : String) : String :=
  ⟨(splitChar '/' path.data).getLastD []⟩

/-- The per-document normalization performed inside `fetchEvents`
(`data.documents.map(doc => ...)`). -/
def normalizeDoc (doc : RawDoc) : Event :=
  { id := lastPathSegment doc.name
    name := doc.event_name.getD ("")
    group := officialSiteToGroup (doc.official_site_url.getD (""))
    created := doc.createTimeMillis }

/-- One response of the listing endpoint, as observed by `fetchEvents`:
either a failure (non-ok HTTP status, or the `fetch`/`json()` promise
rejecting — anything that makes the `try` block throw), or a parsed body
with its optional `documents` array and optional `nextPageToken`. -/
inductive Resp where
  | fail : Resp
  | ok : Option (List RawDoc) → Option String → Resp
deriving DecidableEq

/-- `data.nextPageToken || undefined`: a missing token stays missing, the
empty string (the only falsy string) collapses to missing, any other string
is kept. -/
def effToken : Option String → Option String
  | none => none
  | some tok => if tok = "" then none else some tok

/-- The `do ... while (pageToken)` loop of `fetchEvents`, run against the
successive responses in `pages`, with `acc` the `eventList` accumulator.
Returns the value `fetchEvents` resolves with, paired with the number of
requests the run issued.  A `Resp.fail` (and a request for which the
environment has no response) throws inside `try`, so the `catch` branch
discards the accumulator and resolves with `[]`. -/
def fetchGo : List Resp → List Event → List Event × Nat
  | [], _ => ([], 1)
  | Resp.fail :: _, _ => ([], 1)
  | Resp.ok docs tok :: rest, acc =>
    let pageToken := effToken tok
    let acc2 := match docs with
      | none => acc
      | some ds => acc ++ ds.map normalizeDoc
    match pageToken with
    | none => (acc2, 1)
    | some _ =>
      let r := fetchGo rest acc2
      (r.1, r.2 + 1)

/-- `fetchEvents` from `app.js`: the list of normalized events the promise
resolves with, given the endpoint responses of the run. -/
def fetchEvents (pages : List Resp) : List Event :=
  (fetchGo pages []).1

/-- The number of page requests a `fetchEvents` run issues against the given
endpoint responses. -/
def fetchRequests (pages : List Resp) : Nat :=
  (fetchGo pages []).2

/-- A response that keeps the pagination loop going: a successful page whose
`nextPageToken` is truthy. -/
def Continues : Resp → Prop
  | Resp.fail => False
  | Resp.ok _ tok => effToken tok ≠ none

/-- Serialization of one text-node character as produced by reading back
`innerHTML` after assigning `textContent` (the mechanism of `escapeHtml`):
`&`, `<`, `>` and U+00A0 become entities, everything else is kept. -/
def escapeChar (c : Char) : List Char :=
  if c = '&' then "&amp;".data
  else if c = '<' then "&lt;".data
  else if c = '>' then "&gt;".data
  else if c = Char.ofNat 160 then "&nbsp;".data
  else [c]

/-- `escapeHtml` from `app.js`, modelled as text-node serialization of the
input. -/
def escapeHtml (text : String) : String :=
  ⟨(text.data.map escapeChar).flatten⟩

/-- The empty-state markup `renderEvents` assigns when the list is empty
(template literal at `app.js:150-158`). -/
def emptyStateHtml : String :=
  "\n            <div class=\"empty-state\" style=\"grid-column: 1 / -1;\">\n                <svg fill=\"none\" stroke=\"currentColor\" viewBox=\"0 0 24 24\">\n                    <path stroke-linecap=\"round\" stroke-linejoin=\"round\" stroke-width=\"1.5\" \n                        d=\"M20 13V6a2 2 0 00-2-2H6a2 2 0 00-2 2v7m16 0v5a2 2 0 01-2 2H6a2 2 0 01-2-2v-5m16 0h-2.586a1 1 0 00-.707.293l-2.414 2.414a1 1 0 01-.707.293h-3.172a1 1 0 01-.707-.293l-2.414-2.414A1 1 0 006.586 13H4\" />\n                </svg>\n                <p>イベントが見つかりませんでした</p>\n            </div>\n        "

/-- Card template segment before `${event.group}` (`app.js:163`). -/
def cardTpl0 : String :=
  "\n        <article class=\"event-card "

/-- Card template segment between `${event.group}` and
`${generateShopLink(event)}` (`app.js:163-164`). -/
def cardTpl1 : String :=
  "\">\n            <a href=\""

/-- Card template segment between `${generateShopLink(event)}` and the
second `${event.group}` (`app.js:164-166`). -/
def cardTpl2 : String :=
  "\" target=\"_blank\" rel=\"noopener noreferrer\">\n                <div class=\"event-header\">\n                    <span class=\"group-badge "

/-- Card template segment between the second `${event.group}` and
`${getGroupDisplayName(event.group)}` (`app.js:166`). -/
def cardTpl3 : String :=
  "\">"

/-- Card template segment between `${getGroupDisplayName(event.group)}` and
`${formatDate(event.created)}` (`app.js:166-167`). -/
def cardTpl4 : String :=
  "</span>\n                    <span class=\"event-date\">"

/-- Card template segment between `${formatDate(event.created)}` and
`${escapeHtml(event.name)}` (`app.js:167-169`). -/
def cardTpl5 : String :=
  "</span>\n                </div>\n                <h3 class=\"event-name\">"

/-- Card template segment after `${escapeHtml(event.name)}`
(`app.js:169-181`). -/
def cardTpl6 : String :=
  "</h3>\n                <div class=\"event-footer\">\n                    <span class=\"shop-link\">\n                        ショップを開く\n                        <svg fill=\"none\" stroke=\"currentColor\" viewBox=\"0 0 24 24\">\n                            <path stroke-linecap=\"round\" stroke-linejoin=\"round\" stroke-width=\"2\" \n                                d=\"M10 6H6a2 2 0 00-2 2v10a2 2 0 002 2h10a2 2 0 002-2v-4M14 4h6m0 0v6m0-6L10 14\" />\n                        </svg>\n                    </span>\n                </div>\n            </a>\n        </article>\n    "

/-- One event card, the template literal of `renderEvents`
(`app.js:162-181`) split at its five interpolation points. -/
def renderCard (event : Event) : String :=
  cardTpl0 ++ event.group ++ cardTpl1 ++ generateShopLink event ++ cardTpl2 ++
    event.group ++ cardTpl3 ++ getGroupDisplayName event.group ++ cardTpl4 ++
    formatDate event.created ++ cardTpl5 ++ escapeHtml event.name ++ cardTpl6

/-- `renderEvents` from `app.js`, modelled as the markup string assigned to
`listEl.innerHTML`: the empty-state markup when `events.length === 0`, else
`events.map(event => ...).join('')`. -/
def renderEvents (events : List Event) : String :=
  if events.length = 0 then emptyStateHtml
  else String.join (events.map renderCard)

/-- The per-group counters of `updateStats` (the `counts` object literal,
which owns exactly the four configured keys). -/
structure Counts where
  equalLove : Nat
  notEqualMe : Nat
  nearlyEqualJoy : Nat
  unknownGroup : Nat
deriving DecidableEq

/-- The `allEvents.forEach` body of `updateStats`:
`if (counts.hasOwnProperty(event.group)) counts[event.group]++` — the
`counts` object has exactly the four configured keys, so any other group is
left uncounted. -/
def bumpCount (c : Counts) (group : String) : Counts :=
  if group = "equal-love" then { c with equalLove := c.equalLove + 1 }
  else if group = "not-equal-me" then { c with notEqualMe := c.notEqualMe + 1 }
  else if group = "nearly-equal-joy" then
    { c with nearlyEqualJoy := c.nearlyEqualJoy + 1 }
  else if group = "unknown" then { c with unknownGroup := c.unknownGroup + 1 }
  else c

/-- The per-category counts computed by `updateStats` over `allEvents`. -/
def computeCounts (events : List Event) : Counts :=
  events.foldl (fun c event => bumpCount c event.group) ⟨0, 0, 0, 0⟩

/-- The aggregate count `updateStats` writes into the `count-all` slot:
`allEvents.length`. -/
def countAll (events : List Event) : Nat :=
  events.length

/-- `filterEvents` from `app.js` (its filtering core, without the DOM
side effects): `group === 'all' ? allEvents : allEvents.filter(...)`. -/
def filterEvents (events : List Event) (group : String) : List Event :=
  if group = "all" then events
  else events.filter (fun event => event.group = group)

/-- The comparator `(a, b) => b.created - a.created` of `init`, as the
boolean relation “the comparator is `≤ 0`”. -/
def createdDesc (a b : Event) : Bool :=
  b.created ≤ a.created

/-- `allEvents.sort((a, b) => b.created - a.created)` from `init`,
modelled by the stable `List.mergeSort` (ECMAScript requires
`Array.prototype.sort` to be stable). -/
def sortEvents (events : List Event) : List Event :=
  events.mergeSort createdDesc

/-- The character list of the representative markup payload `<script>`
used to state the escaping claims. -/
def scriptPat : List Char :=
  "<script>".data

/-- The characters a nonempty proper prefix of `scriptPat` can end in. -/
def badLastChars : List Char :=
  ['<', 's', 'c', 'r', 'i', 'p', 't']

/-- A piece of renderer output through which no occurrence of `scriptPat`
can pass: either it contains no `<` at all, or (for the concrete template
segments) it does not contain `scriptPat` and does not end in a character
that a proper prefix of `scriptPat` ends in, so no occurrence can start in
it and spill over into the following pieces. -/
def ChunkSafe (l : List Char) : Prop :=
  '<' ∉ l ∨ (¬ scriptPat <:+: l ∧ l.getLast? ∉ badLastChars.map some)

/-- The character lists of the sixteen pieces whose concatenation is the
card markup `renderCard` produces: template segments and interpolated
values in source order. -/
def cardChunks (event : Event) : List (List Char) :=
  [cardTpl0.data, event.group.data, cardTpl1.data, "https://monosys.net/".data,
   event.group.data, "/".data, event.id.data, cardTpl2.data, event.group.data,
   cardTpl3.data, (getGroupDisplayName event.group).data, cardTpl4.data,
   (formatDate event.created).data, cardTpl5.data, (escapeHtml event.name).data,
   cardTpl6.data]

/-! ## Helper lemmas -/

/-- The number of requests a run issues does not depend on the accumulator
already collected. -/
theorem fetchGo_snd_eq :
    ∀ (pages : List Resp) (acc acc' : List Event),
      (fetchGo pages acc).2 = (fetchGo pages acc').2
  | [], _, _ => rfl
  | Resp.fail :: _, _, _ => rfl
  | Resp.ok docs tok :: rest, acc, acc' => by
    simp only [fetchGo]
    cases effToken tok with
    | none => rfl
    | some t => simpa using fetchGo_snd_eq rest _ _

/-- A failure response reached through continuing pages makes the whole run
resolve with `[]`, whatever was accumulated. -/
theorem fetchGo_fail_nil :
    ∀ (pre rest : List Resp) (acc : List Event),
      (∀ r ∈ pre, Continues r) →
      (fetchGo (pre ++ Resp.fail :: rest) acc).1 = []
  | [], _, _, _ => rfl
  | Resp.fail :: _, _, _, h =>
    absurd (h _ (List.mem_cons_self _ _)) (fun hc => hc)
  | Resp.ok docs tok :: pre, rest, acc, h => by
    have hct : Continues (Resp.ok docs tok) := h _ (List.mem_cons_self _ _)
    simp only [Continues] at hct
    simp only [List.cons_append, fetchGo]
    cases heq : effToken tok with
    | none => exact absurd heq hct
    | some t =>
      simpa using fetchGo_fail_nil pre rest _ (fun r hr => h r (List.mem_cons_of_mem _ hr))

/-! ## Claims about the paginated fetcher -/

/-- Claim C1: the pagination loop of `fetchEvents` keeps issuing page
requests exactly as long as the previous response carried a continuation
token: a page with no (effective) token is the last request; a page with a
token costs one request plus whatever the remaining pages cost; a page with
a token but zero documents (absent `documents`, or an empty array)
contributes no records yet does not terminate the loop.  Concretely, for an
endpoint returning page 1 with two documents and a token and page 2 with
one document and no token, `fetchEvents` returns exactly the three
normalized records in page order and issues exactly two requests. -/
theorem pagination_follows_token :
    (∀ (docs : Option (List RawDoc)) (tok : Option String) (rest : List Resp),
        effToken tok = none → fetchRequests (Resp.ok docs tok :: rest) = 1) ∧
    (∀ (docs : Option (List RawDoc)) (tok : Option String) (rest : List Resp),
        effToken tok ≠ none →
        fetchRequests (Resp.ok docs tok :: rest) = fetchRequests rest + 1) ∧
    (∀ (tok : Option String) (rest : List Resp),
        effToken tok ≠ none →
        fetchEvents (Resp.ok (some []) tok :: rest) = fetchEvents rest ∧
        fetchEvents (Resp.ok none tok :: rest) = fetchEvents rest) ∧
    (fetchEvents
        [Resp.ok
          (some
            [⟨"projects/yoani-buppan-dev/databases/(default)/documents/events-prod/ev1",
              some ("Event One"), some ("https://equal-love.jp/"), 100⟩,
             ⟨"projects/yoani-buppan-dev/databases/(default)/documents/events-prod/ev2",
              some ("Event Two"), none, 200⟩])
          (some ("page2")),
         Resp.ok
          (some
            [⟨"projects/yoani-buppan-dev/databases/(default)/documents/events-prod/ev3",
              some ("Event Three"), some ("https://not-equal-me.jp/"), 300⟩])
          none]
        = [⟨"ev1", "Event One", "equal-love", 100⟩,
           ⟨"ev2", "Event Two", "unknown", 200⟩,
           ⟨"ev3", "Event Three", "not-equal-me", 300⟩] ∧
     fetchRequests
        [Resp.ok
          (some
            [⟨"projects/yoani-buppan-dev/databases/(default)/documents/events-prod/ev1",
              some ("Event One"), some ("https://equal-love.jp/"), 100⟩,
             ⟨"projects/yoani-buppan-dev/databases/(default)/documents/events-prod/ev2",
              some ("Event Two"), none, 200⟩])
          (some ("page2")),
         Resp.ok
          (some
            [⟨"projects/yoani-buppan-dev/databases/(default)/documents/events-prod/ev3",
              some ("Event Three"), some ("https://not-equal-me.jp/"), 300⟩])
          none]
        = 2) := by
  refine ⟨?_, ?_, ?_, ?_, ?_⟩
  · intro docs tok rest h
    simp [fetchRequests, fetchGo, h]
  · intro docs tok rest h
    cases heq : effToken tok with
    | none => exact absurd heq h
    | some t =>
      simp only [fetchRequests, fetchGo, heq]
      exact congrArg (· + 1) (fetchGo_snd_eq rest _ _)
  · intro tok rest h
    cases heq : effToken tok with
    | none => exact absurd heq h
    | some t => constructor <;> simp [fetchEvents, fetchGo, heq]
  · decide
  · decide

/-- Witness for C1, exercising the hypothesis-bearing conjuncts at concrete
pages. -/
theorem pagination_follows_token_witness :
    (effToken (some ("tok")) ≠ none ∧
      fetchRequests [Resp.ok none (some ("tok")), Resp.fail]
        = fetchRequests [Resp.fail] + 1) ∧
    (effToken none = none ∧
      fetchRequests [Resp.ok none none, Resp.fail] = 1) :=
  ⟨⟨by decide, pagination_follows_token.2.1 none (some ("tok")) [Resp.fail] (by decide)⟩,
   ⟨rfl, pagination_follows_token.1 none none [Resp.fail] rfl⟩⟩

/-- Claim C2: if any page request or response parse of a `fetchEvents` run
fails, the whole operation resolves with the empty list — records already
normalized from earlier pages of the session are discarded, and no
exception reaches the caller (the model is a total function). -/
theorem fetch_failure_yields_empty :
    ∀ (pre rest : List Resp),
      (∀ r ∈ pre, Continues r) →
      fetchEvents (pre ++ Resp.fail :: rest) = [] :=
  fun pre rest h => fetchGo_fail_nil pre rest [] h

/-- Witness for C2: a first page with two documents and a token, then a
failing second request, yields `[]`. -/
theorem fetch_failure_yields_empty_witness :
    (∀ r ∈ [Resp.ok
        (some
          [⟨"projects/yoani-buppan-dev/databases/(default)/documents/events-prod/ev1",
            some ("Event One"), some ("https://equal-love.jp/"), 100⟩,
           ⟨"projects/yoani-buppan-dev/databases/(default)/documents/events-prod/ev2",
            some ("Event Two"), none, 200⟩])
        (some ("page2"))], Continues r) ∧
    fetchEvents
      ([Resp.ok
        (some
          [⟨"projects/yoani-buppan-dev/databases/(default)/documents/events-prod/ev1",
            some ("Event One"), some ("https://equal-love.jp/"), 100⟩,
           ⟨"projects/yoani-buppan-dev/databases/(default)/documents/events-prod/ev2",
            some ("Event Two"), none, 200⟩])
        (some ("page2"))] ++ [Resp.fail]) = [] := by
  have h : ∀ r ∈ [Resp.ok
      (some
        [⟨"projects/yoani-buppan-dev/databases/(default)/documents/events-prod/ev1",
          some ("Event One"), some ("https://equal-love.jp/"), 100⟩,
         ⟨"projects/yoani-buppan-dev/databases/(default)/documents/events-prod/ev2",
          some ("Event Two"), none, 200⟩])
      (some ("page2"))], Continues r := by
    intro r hr
    simp only [List.mem_singleton] at hr
    subst hr
    simp [Continues, effToken]
  exact ⟨h, fetch_failure_yields_empty _ [] h⟩

/-- Claim C10: a continuation token equal to the empty string (the only
falsy string, via `data.nextPageToken || undefined`) is treated exactly
like an absent token: the run behaves identically to one whose response
carried no token, and pagination stops after that page with no further
request. -/
theorem empty_token_ends_pagination :
    ∀ (docs : Option (List RawDoc)) (rest : List Resp) (acc : List Event),
      fetchGo (Resp.ok docs (some ("")) :: rest) acc
        = fetchGo (Resp.ok docs none :: rest) acc ∧
      fetchRequests (Resp.ok docs (some ("")) :: rest) = 1 := by
  intro docs rest acc
  constructor <;> simp [fetchGo, fetchRequests, effToken]

/-! ## Claim about the classifier -/

/-- Claim C5: `officialSiteToGroup` is total over all strings; on an input
equal (case-sensitively, with no normalization) to the `url` of some
configured entry it returns the first such key in the defined order of
`GROUP_CONFIG`, and on an input matching no configured `url` it returns the
fallback `"unknown"`. -/
theorem classify_first_match :
    ∀ siteUrl : String,
      ((∀ e ∈ GROUP_CONFIG, e.2.url ≠ siteUrl) →
        officialSiteToGroup siteUrl = "unknown") ∧
      (∀ i : Fin GROUP_CONFIG.length,
        (GROUP_CONFIG.get i).2.url = siteUrl →
        (∀ j : Fin GROUP_CONFIG.length, j < i →
          (GROUP_CONFIG.get j).2.url ≠ siteUrl) →
        officialSiteToGroup siteUrl = (GROUP_CONFIG.get i).1) := by
  intro siteUrl
  constructor
  · intro h
    have h1 := h ("equal-love", ⟨"https://equal-love.jp/", "=LOVE"⟩) (by simp [GROUP_CONFIG])
    have h2 := h ("not-equal-me", ⟨"https://not-equal-me.jp/", "≠ME"⟩) (by simp [GROUP_CONFIG])
    have h3 := h ("nearly-equal-joy", ⟨"https://nearly-equal-joy.jp/", "≒JOY"⟩)
      (by simp [GROUP_CONFIG])
    have h4 := h ("unknown", ⟨"", "その他"⟩) (by simp [GROUP_CONFIG])
    simp only at h1 h2 h3 h4
    simp [officialSiteToGroup, GROUP_CONFIG, lookupGroup, h1, h2, h3, h4]
  · intro i hi hj
    fin_cases i
    · simp only [GROUP_CONFIG, List.get] at hi ⊢
      simp [officialSiteToGroup, GROUP_CONFIG, lookupGroup, hi]
    · have j0 := hj ⟨0, by simp [GROUP_CONFIG]⟩ (by decide)
      simp only [GROUP_CONFIG, List.get] at hi j0 ⊢
      simp [officialSiteToGroup, GROUP_CONFIG, lookupGroup, hi, j0]
    · have j0 := hj ⟨0, by simp [GROUP_CONFIG]⟩ (by decide)
      have j1 := hj ⟨1, by simp [GROUP_CONFIG]⟩ (by decide)
      simp only [GROUP_CONFIG, List.get] at hi j0 j1 ⊢
      simp [officialSiteToGroup, GROUP_CONFIG, lookupGroup, hi, j0, j1]
    · have j0 := hj ⟨0, by simp [GROUP_CONFIG]⟩ (by decide)
      have j1 := hj ⟨1, by simp [GROUP_CONFIG]⟩ (by decide)
      have j2 := hj ⟨2, by simp [GROUP_CONFIG]⟩ (by decide)
      simp only [GROUP_CONFIG, List.get] at hi j0 j1 j2 ⊢
      simp [officialSiteToGroup, GROUP_CONFIG, lookupGroup, hi, j0, j1, j2]

/-- Witness for C5: a non-configured URL falls back to `"unknown"`; the
configured `≠ME` URL maps to the second key. -/
theorem classify_first_match_witness :
    officialSiteToGroup ("https://example.com/") = "unknown" ∧
    officialSiteToGroup ("https://not-equal-me.jp/") = "not-equal-me" := by
  constructor
  · exact (classify_first_match ("https://example.com/")).1 (by decide)
  · have h := (classify_first_match ("https://not-equal-me.jp/")).2
      ⟨1, by decide⟩ (by decide) (by decide)
    simpa [GROUP_CONFIG] using h

/-! ## Claim about the filter engine -/

/-- Claim C4: `filterEvents` with the `"all"` selector returns the input
unchanged; with any other selector it returns the ordered subsequence of
records whose `group` equals the selector — every returned record matches,
none is omitted (the count of matching records is preserved), order is
preserved (sublist) — and, the model being pure, filtering twice with the
same selector yields the same result. -/
theorem filter_engine_correct :
    ∀ (events : List Event) (c : String),
      filterEvents events ("all") = events ∧
      (c ≠ "all" →
        List.Sublist (filterEvents events c) events ∧
        (∀ e ∈ filterEvents events c, e.group = c) ∧
        (filterEvents events c).length = events.countP (fun e => e.group = c)) ∧
      filterEvents (filterEvents events c) c = filterEvents events c := by
  intro events c
  refine ⟨by simp [filterEvents], fun hc => ⟨?_, ?_, ?_⟩, ?_⟩
  · rw [filterEvents, if_neg hc]
    exact List.filter_sublist _
  · intro e he
    rw [filterEvents, if_neg hc] at he
    simpa using (List.mem_filter.mp he).2
  · rw [filterEvents, if_neg hc, List.countP_eq_length_filter]
  · by_cases hc : c = "all"
    · subst hc; simp [filterEvents]
    · simp [filterEvents, hc, List.filter_filter]

/-- Witness for C4 at a concrete selector and list. -/
theorem filter_engine_correct_witness :
    ("equal-love" : String) ≠ "all" ∧
    (filterEvents
        [⟨"a", "A", "equal-love", 1⟩, ⟨"b", "B", "unknown", 2⟩,
         ⟨"c", "C", "equal-love", 3⟩] ("equal-love")).length
      = List.countP (fun e : Event => e.group = "equal-love")
          [⟨"a", "A", "equal-love", 1⟩, ⟨"b", "B", "unknown", 2⟩,
           ⟨"c", "C", "equal-love", 3⟩] :=
  ⟨by decide,
   ((filter_engine_correct
      [⟨"a", "A", "equal-love", 1⟩, ⟨"b", "B", "unknown", 2⟩,
       ⟨"c", "C", "equal-love", 3⟩] ("equal-love")).2.1 (by decide)).2.2⟩

/-! ## Claim about the aggregator -/

/-- `bumpCount` adds one to the `equalLove` bucket exactly on the matching
key. -/
theorem bumpCount_equalLove (c : Counts) (g : String) :
    (bumpCount c g).equalLove
      = c.equalLove + (if g = "equal-love" then 1 else 0) := by
  simp only [bumpCount]
  split_ifs <;> simp_all

/-- `bumpCount` adds one to the `notEqualMe` bucket exactly on the matching
key. -/
theorem bumpCount_notEqualMe (c : Counts) (g : String) :
    (bumpCount c g).notEqualMe
      = c.notEqualMe + (if g = "not-equal-me" then 1 else 0) := by
  simp only [bumpCount]
  split_ifs <;> simp_all

/-- `bumpCount` adds one to the `nearlyEqualJoy` bucket exactly on the
matching key. -/
theorem bumpCount_nearlyEqualJoy (c : Counts) (g : String) :
    (bumpCount c g).nearlyEqualJoy
      = c.nearlyEqualJoy + (if g = "nearly-equal-joy" then 1 else 0) := by
  simp only [bumpCount]
  split_ifs <;> simp_all

/-- `bumpCount` adds one to the `unknownGroup` bucket exactly on the
matching key. -/
theorem bumpCount_unknownGroup (c : Counts) (g : String) :
    (bumpCount c g).unknownGroup
      = c.unknownGroup + (if g = "unknown" then 1 else 0) := by
  simp only [bumpCount]
  split_ifs <;> simp_all

/-- The `updateStats` fold computes, over any starting counters, the number
of records in each configured bucket. -/
theorem countsAux (l : List Event) :
    ∀ c : Counts,
      ((l.foldl (fun c event => bumpCount c event.group) c).equalLove
        = c.equalLove + l.countP (fun e => e.group = "equal-love")) ∧
      ((l.foldl (fun c event => bumpCount c event.group) c).notEqualMe
        = c.notEqualMe + l.countP (fun e => e.group = "not-equal-me")) ∧
      ((l.foldl (fun c event => bumpCount c event.group) c).nearlyEqualJoy
        = c.nearlyEqualJoy + l.countP (fun e => e.group = "nearly-equal-joy")) ∧
      ((l.foldl (fun c event => bumpCount c event.group) c).unknownGroup
        = c.unknownGroup + l.countP (fun e => e.group = "unknown")) := by
  induction l with
  | nil => intro c; simp
  | cons e l ih =>
    intro c
    have h := ih (bumpCount c e.group)
    simp only [List.foldl_cons, List.countP_cons, decide_eq_true_eq]
    refine ⟨?_, ?_, ?_, ?_⟩
    · rw [h.1, bumpCount_equalLove]; omega
    · rw [h.2.1, bumpCount_notEqualMe]; omega
    · rw [h.2.2.1, bumpCount_nearlyEqualJoy]; omega
    · rw [h.2.2.2, bumpCount_unknownGroup]; omega

/-- Claim C8: `updateStats` computes, for each configured category, the
count of records whose `group` equals that key, and a total equal to the
size of the whole collection; a record whose `group` is no configured key
is silently counted in no bucket (appending such a record leaves every
counter unchanged). -/
theorem stats_counts_correct :
    ∀ events : List Event,
      (computeCounts events).equalLove
        = events.countP (fun e => e.group = "equal-love") ∧
      (computeCounts events).notEqualMe
        = events.countP (fun e => e.group = "not-equal-me") ∧
      (computeCounts events).nearlyEqualJoy
        = events.countP (fun e => e.group = "nearly-equal-joy") ∧
      (computeCounts events).unknownGroup
        = events.countP (fun e => e.group = "unknown") ∧
      countAll events = events.length ∧
      (∀ e : Event, e.group ∉ GROUP_CONFIG.map Prod.fst →
        computeCounts (events ++ [e]) = computeCounts events) := by
  intro events
  have h := countsAux events ⟨0, 0, 0, 0⟩
  refine ⟨by simpa using h.1, by simpa using h.2.1, by simpa using h.2.2.1,
    by simpa using h.2.2.2, rfl, ?_⟩
  intro e he
  simp only [GROUP_CONFIG, List.map_cons, List.map_nil, List.mem_cons,
    List.not_mem_nil, or_false, not_or] at he
  simp [computeCounts, List.foldl_append, bumpCount, he.1, he.2.1, he.2.2.1, he.2.2.2]

/-- Witness for C8: a record with an unconfigured group is counted
nowhere. -/
theorem stats_counts_correct_witness :
    (("other" : String) ∉ GROUP_CONFIG.map Prod.fst) ∧
    computeCounts ([] ++ [⟨"x", "X", "other", 0⟩]) = computeCounts [] :=
  ⟨by decide,
   (stats_counts_correct []).2.2.2.2.2 ⟨"x", "X", "other", 0⟩ (by decide)⟩

/-! ## Claim about the generated shop link -/

/-- The fixed base URL of the shop link, for stating the spec-side
decomposition of `generateShopLink`. -/
def shopLinkBase : String := "https://monosys.net"

/-- Claim C9: the external link equals the fixed base, the category
identifier and the id, in that order, separated by `/`; in particular a
record with `group = "equal-love"` and `id = "abc"` yields the base joined
with `"equal-love/abc"`. -/
theorem shop_link_structure :
    (∀ event : Event,
      generateShopLink event
        = shopLinkBase ++ "/" ++ event.group ++ "/" ++ event.id) ∧
    generateShopLink ⟨"abc", "", "equal-love", 0⟩
      = shopLinkBase ++ "/" ++ ("equal-love/abc") := by
  constructor
  · intro event
    apply String.ext
    simp [generateShopLink, shopLinkBase, String.data_append, List.append_assoc]
  · decide

/-! ## Claim about the sort -/

/-- Claim C3: the sort `init` performs after fetching is a stable
descending sort on `created`: every adjacent pair of the output is
non-increasing in `created`, records with equal `created` keep their
relative fetch order (the subsequence at any fixed `created` value is
unchanged), and the output is a permutation of the input. -/
theorem sort_desc_stable :
    ∀ events : List Event,
      List.Chain' (fun a b : Event => b.created ≤ a.created)
        (sortEvents events) ∧
      (∀ v : Int,
        (sortEvents events).filter (fun e => e.created = v)
          = events.filter (fun e => e.created = v)) ∧
      (sortEvents events).Perm events := by
  have trans : ∀ a b c : Event,
      createdDesc a b → createdDesc b c → createdDesc a c := by
    intro a b c hab hbc
    simp only [createdDesc, decide_eq_true_eq] at *
    omega
  have total : ∀ a b : Event, createdDesc a b || createdDesc b a := by
    intro a b
    simp only [createdDesc]
    by_cases h : b.created ≤ a.created
    · simp [h]
    · simp only [h, decide_False, Bool.false_or, decide_eq_true_eq]
      omega
  intro events
  refine ⟨?_, ?_, List.mergeSort_perm events createdDesc⟩
  · have hp := List.sorted_mergeSort trans total events
    exact (hp.imp (fun h => by
      simpa [createdDesc, decide_eq_true_eq] using h)).chain'
  · intro v
    have hsub : List.Sublist (events.filter (fun e => e.created = v))
        (List.mergeSort events createdDesc) := by
      apply List.sublist_mergeSort trans total
      · apply List.pairwise_of_forall_mem_list
        intro a ha b hb
        have ha2 := (List.mem_filter.mp ha).2
        have hb2 := (List.mem_filter.mp hb).2
        simp only [decide_eq_true_eq] at ha2 hb2
        simp [createdDesc, ha2, hb2]
      · exact List.filter_sublist _
    have hsub2 : List.Sublist (events.filter (fun e => e.created = v))
        ((List.mergeSort events createdDesc).filter (fun e => e.created = v)) := by
      have h2 := hsub.filter (fun e => decide (e.created = v))
      rw [List.filter_filter] at h2
      simpa only [Bool.and_self] using h2
    have hlen : ((List.mergeSort events createdDesc).filter
          (fun e => e.created = v)).length
        = (events.filter (fun e => e.created = v)).length :=
      ((List.mergeSort_perm events createdDesc).filter _).length_eq
    exact (hsub2.eq_of_length hlen.symm).symm

/-! ## String-occurrence machinery for the escaping claims -/

/-- An occurrence of `sub` in `a ++ b` lies in `a`, lies in `b`, or splits
into a nonempty suffix of `a` followed by a nonempty prefix of `b`. -/
theorem isInfix_append_cases {α : Type} {sub a b : List α}
    (h : sub <:+: a ++ b) :
    sub <:+: a ∨ sub <:+: b ∨
      ∃ s₁ s₂, s₁ ++ s₂ = sub ∧ s₁ ≠ [] ∧ s₂ ≠ [] ∧ s₁ <:+ a ∧ s₂ <+: b := by
  obtain ⟨p, q, hpq⟩ := h
  rw [List.append_assoc] at hpq
  rcases List.append_eq_append_iff.mp hpq with ⟨w, hw1, hw2⟩ | ⟨w, hw1, hw2⟩
  · -- hw1 : a = p ++ w, hw2 : sub ++ q = w ++ b
    rcases List.append_eq_append_iff.mp hw2 with ⟨u, hu1, hu2⟩ | ⟨u, hu1, hu2⟩
    · -- hu1 : w = sub ++ u : the occurrence lies inside a
      left
      exact ⟨p, u, by rw [hw1, hu1, List.append_assoc]⟩
    · -- hu1 : sub = w ++ u, hu2 : b = u ++ q
      rcases eq_or_ne w [] with rfl | hw
      · right; left
        have hsu : sub = u := by simpa using hu1
        exact ⟨[], q, by simp [hsu, hu2.symm]⟩
      · rcases eq_or_ne u [] with rfl | hu
        · left
          have hsw : sub = w := by simpa using hu1
          exact ⟨p, [], by simp [hsw, hw1.symm]⟩
        · right; right
          exact ⟨w, u, hu1.symm, hw, hu, ⟨p, hw1.symm⟩, ⟨q, hu2.symm⟩⟩
  · -- hw1 : p = a ++ w, hw2 : b = w ++ (sub ++ q) : the occurrence lies in b
    right; left
    exact ⟨w, q, by rw [hw2, List.append_assoc]⟩

/-- Every nonempty proper prefix of `scriptPat` contains `<` and ends in
one of `badLastChars`. -/
theorem scriptPat_splits :
    ∀ s₁ s₂ : List Char, s₁ ++ s₂ = scriptPat → s₁ ≠ [] → s₂ ≠ [] →
      '<' ∈ s₁ ∧ s₁.getLast? ∈ badLastChars.map some := by
  intro s₁ s₂ hs h1 h2
  have hpre : s₁ <+: scriptPat := ⟨s₂, hs⟩
  have htake := List.prefix_iff_eq_take.mp hpre
  have hlen : s₁.length + s₂.length = scriptPat.length := by
    rw [← hs]; simp
  have hlen8 : scriptPat.length = 8 := by decide
  have hk1 : 1 ≤ s₁.length := by
    have := List.length_pos.mpr h1; omega
  have hk7 : s₁.length ≤ 7 := by
    have := List.length_pos.mpr h2; omega
  obtain ⟨k, hk⟩ : ∃ k, s₁.length = k := ⟨_, rfl⟩
  rw [hk] at htake hk1 hk7
  subst htake
  interval_cases k <;> decide

/-- A `ChunkSafe` piece does not contain `scriptPat`. -/
theorem chunkSafe_no_occurrence {c : List Char} (h : ChunkSafe c) :
    ¬ scriptPat <:+: c := by
  rcases h with hlt | ⟨hni, _⟩
  · intro hinf
    exact hlt (hinf.sublist.subset (by decide : '<' ∈ scriptPat))
  · exact hni

/-- No nonempty proper prefix of `scriptPat` is a suffix of a `ChunkSafe`
piece. -/
theorem chunkSafe_no_prefix_suffix {c s₁ s₂ : List Char} (h : ChunkSafe c)
    (hs : s₁ ++ s₂ = scriptPat) (h1 : s₁ ≠ []) (h2 : s₂ ≠ []) :
    ¬ s₁ <:+ c := by
  intro hsuf
  obtain ⟨hmem, hlast⟩ := scriptPat_splits s₁ s₂ hs h1 h2
  rcases h with hlt | ⟨_, hl⟩
  · exact hlt (hsuf.sublist.subset hmem)
  · apply hl
    obtain ⟨pre, hpre⟩ := hsuf
    rw [← hpre, List.getLast?_append]
    obtain ⟨ch, _, hceq⟩ := List.mem_map.mp hlast
    rw [← hceq] at hlast ⊢
    simpa using hlast

/-- `scriptPat` does not occur in a concatenation of `ChunkSafe` pieces
followed by a tail it does not occur in. -/
theorem safe_chunks_append :
    ∀ (chunks : List (List Char)) (tail : List Char),
      (∀ c ∈ chunks, ChunkSafe c) → ¬ scriptPat <:+: tail →
      ¬ scriptPat <:+: (chunks.flatten ++ tail)
  | [], _, _, ht => by simpa using ht
  | c :: cs, tail, hs, ht => by
    have hrest :=
      safe_chunks_append cs tail (fun x hx => hs x (List.mem_cons_of_mem _ hx)) ht
    have hc := hs c (List.mem_cons_self _ _)
    rw [List.flatten_cons, List.append_assoc]
    intro hinf
    rcases isInfix_append_cases hinf with h | h | ⟨s₁, s₂, hsplit, h1, h2, hsuf, _⟩
    · exact chunkSafe_no_occurrence hc h
    · exact hrest h
    · exact chunkSafe_no_prefix_suffix hc hsplit h1 h2 hsuf

/-- Character data of a string fold of appends. -/
theorem foldl_append_data :
    ∀ (l : List String) (acc : String),
      (l.foldl (fun r s => r ++ s) acc).data
        = acc.data ++ (l.map String.data).flatten
  | [], acc => by simp
  | s :: l, acc => by
    simp only [List.foldl_cons, foldl_append_data l (acc ++ s),
      String.data_append, List.map_cons, List.flatten_cons, List.append_assoc]

/-- Character data of `String.join` (the model of `.join('')`). -/
theorem join_data (l : List String) :
    (String.join l).data = (l.map String.data).flatten := by
  simpa [String.join] using foldl_append_data l ""

/-- The card markup is exactly the concatenation of its sixteen pieces. -/
theorem renderCard_data (event : Event) :
    (renderCard event).data = (cardChunks event).flatten := by
  simp [renderCard, generateShopLink, cardChunks, String.data_append,
    List.append_assoc]

/-- `escapeChar` never emits `<` or `>`. -/
theorem escapeChar_no_angle (c : Char) :
    '<' ∉ escapeChar c ∧ '>' ∉ escapeChar c := by
  simp only [escapeChar]
  split_ifs with h1 h2 h3 h4
  · decide
  · decide
  · decide
  · decide
  · simp only [List.mem_singleton]
    exact ⟨fun h => h2 h.symm, fun h => h3 h.symm⟩

/-- The escaped form of any string contains neither `<` nor `>`. -/
theorem escapeHtml_no_angle (s : String) :
    '<' ∉ (escapeHtml s).data ∧ '>' ∉ (escapeHtml s).data := by
  refine ⟨fun hmem => ?_, fun hmem => ?_⟩ <;>
    obtain ⟨l, hl, hcl⟩ := List.mem_flatten.mp hmem <;>
    obtain ⟨c, _, rfl⟩ := List.mem_map.mp hl
  · exact absurd hcl (escapeChar_no_angle c).1
  · exact absurd hcl (escapeChar_no_angle c).2

/-- Every character `natDigitsGo` emits is a digit or comes from the
accumulator. -/
theorem natDigitsGo_chars :
    ∀ (fuel n : Nat) (acc : List Char) (x : Char),
      x ∈ natDigitsGo fuel n acc → (∃ d, x = digitChar d) ∨ x ∈ acc
  | 0, _, _, _, hx => Or.inr hx
  | fuel + 1, n, acc, x, hx => by
    simp only [natDigitsGo] at hx
    split at hx
    · rcases List.mem_cons.mp hx with rfl | h
      · exact Or.inl ⟨n, rfl⟩
      · exact Or.inr h
    · rcases natDigitsGo_chars fuel (n / 10) (digitChar (n % 10) :: acc) x hx with h | h
      · exact Or.inl h
      · rcases List.mem_cons.mp h with rfl | h2
        · exact Or.inl ⟨n % 10, rfl⟩
        · exact Or.inr h2

/-- Digit characters are not angle brackets. -/
theorem digitChar_no_angle (d : Nat) :
    digitChar d ≠ '<' ∧ digitChar d ≠ '>' := by
  constructor <;> (unfold digitChar; split <;> decide)

/-- `natRepr` emits only digit characters. -/
theorem natRepr_no_angle (n : Nat) :
    '<' ∉ (natRepr n).data ∧ '>' ∉ (natRepr n).data := by
  have hd : ∀ x ∈ (natRepr n).data, ∃ d, x = digitChar d := by
    intro x hx
    rcases natDigitsGo_chars (n + 1) n [] x hx with h | h
    · exact h
    · exact absurd h (List.not_mem_nil x)
  constructor <;> intro hmem <;> obtain ⟨d, hd2⟩ := hd _ hmem
  · exact (digitChar_no_angle d).1 hd2.symm
  · exact (digitChar_no_angle d).2 hd2.symm

/-- `intRepr` emits only digits and a possible leading minus sign. -/
theorem intRepr_no_angle (i : Int) :
    '<' ∉ (intRepr i).data ∧ '>' ∉ (intRepr i).data := by
  rw [intRepr]
  split_ifs
  · simp only [String.data_append, List.mem_append]
    constructor <;> intro hmem <;> rcases hmem with h | h
    · exact absurd h (by decide)
    · exact (natRepr_no_angle _).1 h
    · exact absurd h (by decide)
    · exact (natRepr_no_angle _).2 h
  · exact natRepr_no_angle _

/-- `pad2` preserves freedom from angle brackets. -/
theorem pad2_no_angle (s : String) (h : '<' ∉ s.data ∧ '>' ∉ s.data) :
    '<' ∉ (pad2 s).data ∧ '>' ∉ (pad2 s).data := by
  rw [pad2]
  split_ifs
  · decide
  · simp only [String.data_append, List.mem_append]
    constructor <;> intro hmem <;> rcases hmem with h2 | h2
    · exact absurd h2 (by decide)
    · exact h.1 h2
    · exact absurd h2 (by decide)
    · exact h.2 h2
  · exact h

/-- The formatted date contains neither `<` nor `>`. -/
theorem formatDate_no_angle (t : Int) :
    '<' ∉ (formatDate t).data ∧ '>' ∉ (formatDate t).data := by
  have hs : '<' ∉ ("/" : String).data ∧ '>' ∉ ("/" : String).data := by decide
  have h1 := intRepr_no_angle (civilFromDays (t.fdiv 86400000)).1
  have h2 := pad2_no_angle (natRepr (civilFromDays (t.fdiv 86400000)).2.1)
    (natRepr_no_angle _)
  have h3 := pad2_no_angle (natRepr (civilFromDays (t.fdiv 86400000)).2.2)
    (natRepr_no_angle _)
  rw [formatDate]
  simp only [String.data_append, List.mem_append]
  constructor <;> intro hmem
  · rcases hmem with ((((h | h) | h) | h) | h)
    · exact h1.1 h
    · exact hs.1 h
    · exact h2.1 h
    · exact hs.1 h
    · exact h3.1 h
  · rcases hmem with ((((h | h) | h) | h) | h)
    · exact h1.2 h
    · exact hs.2 h
    · exact h2.2 h
    · exact hs.2 h
    · exact h3.2 h

/-- A configured group key is one of the four literals. -/
theorem groupKey_cases {g : String} (h : g ∈ GROUP_CONFIG.map Prod.fst) :
    g = "equal-love" ∨ g = "not-equal-me" ∨ g = "nearly-equal-joy" ∨
      g = "unknown" := by
  simpa [GROUP_CONFIG] using h

/-- A configured group key and its display name contain no `<`. -/
theorem groupKey_no_lt {g : String} (h : g ∈ GROUP_CONFIG.map Prod.fst) :
    '<' ∉ g.data ∧ '<' ∉ (getGroupDisplayName g).data := by
  rcases groupKey_cases h with rfl | rfl | rfl | rfl <;> exact (by decide)

/-- Under the data-model invariant (the group is a configured key) and for
an id free of `<`, every piece of the card markup is `ChunkSafe`. -/
theorem cardChunks_safe (event : Event)
    (hg : event.group ∈ GROUP_CONFIG.map Prod.fst)
    (hid : '<' ∉ event.id.data) :
    ∀ c ∈ cardChunks event, ChunkSafe c := by
  obtain ⟨hg1, hdn⟩ := groupKey_no_lt hg
  intro c hc
  simp only [cardChunks, List.mem_cons, List.not_mem_nil, or_false] at hc
  rcases hc with rfl | rfl | rfl | rfl | rfl | rfl | rfl | rfl | rfl | rfl |
    rfl | rfl | rfl | rfl | rfl | rfl
  · exact Or.inr (by decide)
  · exact Or.inl hg1
  · exact Or.inr (by decide)
  · exact Or.inl (by decide)
  · exact Or.inl hg1
  · exact Or.inl (by decide)
  · exact Or.inl hid
  · exact Or.inr (by decide)
  · exact Or.inl hg1
  · exact Or.inl (by decide)
  · exact Or.inl hdn
  · exact Or.inr (by decide)
  · exact Or.inl (formatDate_no_angle event.created).1
  · exact Or.inr (by decide)
  · exact Or.inl (escapeHtml_no_angle event.name).1
  · exact Or.inr (by decide)

/-- `scriptPat` does not occur in the joined card markup of any event list
whose groups are configured keys and whose ids are free of `<`. -/
theorem render_join_safe :
    ∀ events : List Event,
      (∀ e ∈ events,
        e.group ∈ GROUP_CONFIG.map Prod.fst ∧ '<' ∉ e.id.data) →
      ¬ scriptPat <:+: (String.join (events.map renderCard)).data
  | [], _ => by decide
  | e :: es, h => by
    have ht := render_join_safe es (fun x hx => h x (List.mem_cons_of_mem _ hx))
    have he := h e (List.mem_cons_self _ _)
    have hc := cardChunks_safe e he.1 he.2
    have hjoin : (String.join ((e :: es).map renderCard)).data
        = (cardChunks e).flatten ++ (String.join (es.map renderCard)).data := by
      simp only [List.map_cons, join_data, List.flatten_cons]
      rw [renderCard_data]
    rw [hjoin]
    exact safe_chunks_append (cardChunks e) _ hc ht

/-- The raw id of every rendered record occurs verbatim in the markup
`renderEvents` produces. -/
theorem render_contains_raw_id :
    ∀ (events : List Event) (e : Event), e ∈ events →
      e.id.data <:+: (renderEvents events).data := by
  intro events e he
  rw [renderEvents]
  split
  · rename_i hlen
    rw [List.length_eq_zero] at hlen
    subst hlen
    exact absurd he (List.not_mem_nil e)
  · have h1 : (renderCard e).data ∈ (events.map renderCard).map String.data :=
      List.mem_map_of_mem _ (List.mem_map_of_mem _ he)
    have h2 : (renderCard e).data <:+: (String.join (events.map renderCard)).data := by
      rw [join_data]
      exact List.infix_of_mem_flatten h1
    refine List.IsInfix.trans ?_ h2
    rw [renderCard_data]
    exact List.infix_of_mem_flatten (by simp [cardChunks])

/-- The escaped name of every rendered record occurs in the markup
`renderEvents` produces. -/
theorem render_contains_escaped_name :
    ∀ (events : List Event) (e : Event), e ∈ events →
      (escapeHtml e.name).data <:+: (renderEvents events).data := by
  intro events e he
  rw [renderEvents]
  split
  · rename_i hlen
    rw [List.length_eq_zero] at hlen
    subst hlen
    exact absurd he (List.not_mem_nil e)
  · have h1 : (renderCard e).data ∈ (events.map renderCard).map String.data :=
      List.mem_map_of_mem _ (List.mem_map_of_mem _ he)
    have h2 : (renderCard e).data <:+: (String.join (events.map renderCard)).data := by
      rw [join_data]
      exact List.infix_of_mem_flatten h1
    refine List.IsInfix.trans ?_ h2
    rw [renderCard_data]
    exact List.infix_of_mem_flatten (by simp [cardChunks])

/-! ## Claims about renderer escaping -/

/-- Counterexample to claim C6 as stated: a record whose id (extracted from
the remote document path, hence user-controlled) is
`<script>alert(1)</script>` is rendered with that string embedded raw in
the markup — the id is interpolated into the link without escaping. -/
theorem render_raw_id_counterexample :
    "<script>alert(1)</script>".data <:+:
      (renderEvents
        [⟨"<script>alert(1)</script>", "safe name", "unknown", 0⟩]).data :=
  render_contains_raw_id
    [⟨"<script>alert(1)</script>", "safe name", "unknown", 0⟩]
    ⟨"<script>alert(1)</script>", "safe name", "unknown", 0⟩
    (List.mem_singleton.mpr rfl)

/-- Claim C6 (amended): in every rendered record, the display name is
inserted only through `escapeHtml` — and its escaped form contains no `<`
or `>`, so it cannot introduce markup — but the id extracted from the
document path is embedded raw, unescaped, in the generated link. -/
theorem render_escapes_name_but_not_id :
    ∀ (events : List Event) (e : Event), e ∈ events →
      e.id.data <:+: (renderEvents events).data ∧
      (escapeHtml e.name).data <:+: (renderEvents events).data ∧
      '<' ∉ (escapeHtml e.name).data ∧ '>' ∉ (escapeHtml e.name).data :=
  fun events e he =>
    ⟨render_contains_raw_id events e he,
     render_contains_escaped_name events e he,
     (escapeHtml_no_angle e.name).1, (escapeHtml_no_angle e.name).2⟩

/-- Witness for the amended C6 at a concrete record. -/
theorem render_escapes_name_but_not_id_witness :
    ((⟨"ev1", "A & B", "unknown", 0⟩ : Event)
        ∈ [(⟨"ev1", "A & B", "unknown", 0⟩ : Event)]) ∧
    ("ev1" : String).data <:+:
      (renderEvents [(⟨"ev1", "A & B", "unknown", 0⟩ : Event)]).data ∧
    (escapeHtml ("A & B")).data <:+:
      (renderEvents [(⟨"ev1", "A & B", "unknown", 0⟩ : Event)]).data ∧
    '<' ∉ (escapeHtml ("A & B")).data ∧ '>' ∉ (escapeHtml ("A & B")).data :=
  ⟨by decide,
   render_escapes_name_but_not_id
     [(⟨"ev1", "A & B", "unknown", 0⟩ : Event)]
     (⟨"ev1", "A & B", "unknown", 0⟩ : Event) (by decide)⟩

/-- Counterexample to claim C7 as stated: for a record whose name contains
`<script>` the unescaped name can still appear in the output, because the
same attacker-controlled string can arrive as the record id, which is
interpolated raw. -/
theorem render_name_reappears_counterexample :
    "<script>alert(1)</script>".data <:+:
      (renderEvents
        [⟨"<script>alert(1)</script>", "<script>alert(1)</script>",
          "unknown", 0⟩]).data :=
  render_contains_raw_id
    [⟨"<script>alert(1)</script>", "<script>alert(1)</script>", "unknown", 0⟩]
    ⟨"<script>alert(1)</script>", "<script>alert(1)</script>", "unknown", 0⟩
    (List.mem_singleton.mpr rfl)

/-- Claim C7 (amended): for every event list whose records satisfy the
data-model invariant (`group` is a configured key) and whose ids are free
of `<`, the rendered markup contains no occurrence of `<script>` at all —
in particular a name containing `<script>` never appears unescaped, since
the name slot inserts only the `escapeHtml` form. -/
theorem render_never_emits_script :
    ∀ events : List Event,
      (∀ e ∈ events,
        e.group ∈ GROUP_CONFIG.map Prod.fst ∧ '<' ∉ e.id.data) →
      ¬ scriptPat <:+: (renderEvents events).data := by
  intro events h
  rw [renderEvents]
  split
  · decide
  · exact render_join_safe events h

/-- Witness for the amended C7: a record whose name is a `<script>` payload
renders to markup with no `<script>` occurrence. -/
theorem render_never_emits_script_witness :
    (∀ e ∈ [(⟨"ev1", "<script>alert(1)</script>", "equal-love", 0⟩ : Event)],
      e.group ∈ GROUP_CONFIG.map Prod.fst ∧ '<' ∉ e.id.data) ∧
    ¬ scriptPat <:+:
      (renderEvents
        [(⟨"ev1", "<script>alert(1)</script>", "equal-love", 0⟩ : Event)]).data :=
  ⟨by decide,
   render_never_emits_script
     [(⟨"ev1", "<script>alert(1)</script>", "equal-love", 0⟩ : Event)]
     (by decide)⟩
